import Mathlib

/-!
Verification of the `ai-analyzer.js` report-analysis utility
(repository `initia-labs/qa_reports`, file `.github/scripts/ai-analyzer.js`).

The script is shallowly embedded below.  JavaScript numbers appearing in
the statistics are modelled as rationals (all claim-relevant values are
exact decimals), instants as integers of milliseconds since the Unix
epoch, and the script's observable behaviour (exit code, directory
creation, file writes, network requests) as an explicit effect list.
-/

/-! ## JavaScript-flavoured primitives -/

/-- Truthiness test for an optional command-line argument, as in
`if (!project || !type)`: an absent argument (`undefined`) and the empty
string are falsy. -/
def jsFalsyOpt (o : Option String) : Bool :=
  match o with
  | none => true
  | some s => s == ""

/-- Models `x || d` for an optional string `x` (JavaScript treats the
empty string as falsy), as in `metadata.branch || 'N/A'`. -/
def jsOrStr (o : Option String) (d : String) : String :=
  match o with
  | none => d
  | some s => if s == "" then d else s

/-- Accumulates the decimal value of a list of digit characters. -/
def digitsVal (cs : List Char) : Nat :=
  cs.foldl (fun a c => a * 10 + (c.toNat - 48)) 0

/-- Fuel-driven conversion of the digits of a natural number to
characters (most significant first), mirroring JavaScript's decimal
`Number`-to-string coercion for nonnegative integers.  The fuel is
always called with at least the number itself, which suffices. -/
def natToStrAux : Nat → Nat → List Char → List Char
  | 0, _, acc => acc
  | fuel + 1, n, acc =>
      if n = 0 then acc
      else natToStrAux fuel (n / 10) (Nat.digitChar (n % 10) :: acc)

/-- Decimal rendering of a natural number, as JavaScript renders an
integral number value. -/
def natToStr (n : Nat) : String :=
  if n = 0 then "0" else String.mk (natToStrAux (n + 1) n [])

/-- Models `metadata.run_number || 'N/A'`: JavaScript renders the number
when it is truthy (nonzero) and falls back to the default otherwise. -/
def jsOrNatStr (o : Option Nat) (d : String) : String :=
  match o with
  | none => d
  | some n => if n = 0 then d else natToStr n

/-- The integer nearest to `10·q` for nonnegative `q`, ties upward:
computed as `⌊10q + 1/2⌋ = (20·num + den) / (2·den)` directly on the
numerator and denominator with floor division by the positive
denominator. -/
def jsRound10 (q : ℚ) : Int :=
  (20 * q.num + (q.den : Int)) / (2 * (q.den : Int))

/-- Rendering of a nonnegative rational to one decimal place:
the integer nearest to `10·q` (ties away from zero, i.e. upward for
nonnegative input) printed with one digit after the point.  Real-number
model of `Number.prototype.toFixed(1)` for nonnegative values. -/
def jsToFixed1Abs (q : ℚ) : String :=
  let n : Nat := (jsRound10 q).toNat
  natToStr (n / 10) ++ "." ++ natToStr (n % 10)

/-- Model of `x.toFixed(1)`: a negative value is rendered as the sign
followed by the rendering of its absolute value. -/
def jsToFixed1 (q : ℚ) : String :=
  if q < 0 then "-" ++ jsToFixed1Abs (-q) else jsToFixed1Abs q

/-- Leading-integer parse modelling `parseInt`: skip spaces, read an
optional sign and then leading decimal digits; no digits means `NaN`,
modelled as `none`. -/
def parseLeadingInt (s : String) : Option Int :=
  let cs := s.data.dropWhile (fun c => c == ' ')
  let signed : Bool × List Char :=
    match cs with
    | '-' :: t => (true, t)
    | '+' :: t => (false, t)
    | t => (false, t)
  let ds := signed.2.takeWhile Char.isDigit
  if ds.isEmpty then none
  else some ((if signed.1 then -1 else 1) * (digitsVal ds : Int))

/-- Models `parseInt(period) || 30`: `NaN` (unparseable or absent) and
`0` both fall back to the default. -/
def jsParseIntDefault (o : Option String) (d : Int) : Int :=
  match o with
  | none => d
  | some s =>
      match parseLeadingInt s with
      | none => d
      | some n => if n = 0 then d else n

/-! ## First-occurrence string replacement

`String.prototype.replace` with a string pattern rewrites only the
first occurrence of the pattern.  (The `$`-substitution escapes that
JavaScript applies inside the replacement string are not modelled; no
claim depends on them.) -/

/-- Does `pat` occur at the very start of `s`? -/
def leadsWith : List Char → List Char → Bool
  | [], _ => true
  | _ :: _, [] => false
  | p :: ps, c :: cs => p == c && leadsWith ps cs

/-- Replace the first occurrence of `pat` in the third argument by
`rep`; if `pat` does not occur the input is returned unchanged. -/
def listReplaceFirst (pat rep : List Char) : List Char → List Char
  | [] => if leadsWith pat [] then rep else []
  | c :: s =>
      if leadsWith pat (c :: s) then rep ++ (c :: s).drop pat.length
      else c :: listReplaceFirst pat rep s

/-- Model of `s.replace(pat, rep)` for a string pattern. -/
def jsReplace (s pat rep : String) : String :=
  String.mk (listReplaceFirst pat.data rep.data s.data)

/-- `pat` occurs in `s` starting at position `i`. -/
def occursAtL (pat s : List Char) (i : Nat) : Prop :=
  leadsWith pat (s.drop i) = true

instance (pat s : List Char) (i : Nat) : Decidable (occursAtL pat s i) :=
  inferInstanceAs (Decidable (_ = true))

/-! ## String ordering

JavaScript compares strings by code units; `Array.prototype.sort()`
without a comparator uses exactly this order, and
`localeCompare` agrees with it on the ASCII digit/dash timestamps used
here.  The comparison is defined structurally on the character list so
that it evaluates. -/

/-- Code-unit lexicographic order on character lists. -/
def charListLe : List Char → List Char → Bool
  | [], _ => true
  | _ :: _, [] => false
  | a :: as, b :: bs => if a = b then charListLe as bs else decide (a < b)

/-- JavaScript string order, `a <= b`. -/
def strLeJS (a b : String) : Bool := charListLe a.data b.data

/-- The string order as a relation, for use with `List.insertionSort`
(a stable sort, as `Array.prototype.sort` is required to be). -/
def strLeRel : String → String → Prop := fun a b => strLeJS a b = true

instance : DecidableRel strLeRel := fun _ _ => inferInstanceAs (Decidable (_ = true))

/-! ## Data model -/

/-- One `metadata.json` record.  Every field the script reads is
optional except the timestamp string (`YYYYMMDD-HHMMSS`), which the
trend path dereferences unconditionally. -/
structure Metadata where
  timestamp : String
  run_number : Option Nat
  branch : Option String
  status : Option String
  total_tests : Option Nat
  passed : Option Nat
  failed : Option Nat
  pass_rate : Option ℚ
  failed_tests : Option (List String)
deriving DecidableEq, Repr

/-- One subdirectory of `reports/{project}`.  `metadataFile = none`
means `metadata.json` is absent, `some none` that it is present but
fails to parse, `some (some m)` that it parses to `m`. -/
structure ReportEntry where
  name : String
  metadataFile : Option (Option Metadata)
deriving DecidableEq

/-- The prompt templates loaded from `config/ai-prompts.yml`. -/
structure AnalyzerConfig where
  singleSystem : String
  singleTemplate : String
  trendSystem : String
  trendTemplate : String

/-- Command-line arguments after the `--key value` parsing loop. -/
structure CliArgs where
  project : Option String
  type : Option String
  timestamp : Option String
  period : Option String

/-- Observable side effects of a run, in order of occurrence.  Reads
are not tracked; no claim mentions them. -/
inductive Effect where
  | mkdir (path : String)
  | write (path : String)
  | network
deriving DecidableEq, Repr

/-- The world a run executes in: the configuration file, the
`reports/{project}` trees, whether the `analysis/{project}` directory
already exists, the credential environment variable, the outcome the
generation endpoint would produce, and the current time in
milliseconds since the Unix epoch. -/
structure AnalyzerWorld where
  config : Option AnalyzerConfig
  reports : String → Option (List ReportEntry)
  analysisDirExists : String → Bool
  env_api_key : Option String
  apiOutcome : Except String String
  now : Int

/-! ## Dates

`new Date(`${year}-${month}-${day}`)` parses an ISO date-only string as
midnight UTC of that day.  Days since the Unix epoch are computed with
the standard civil-calendar formula; `/` and `%` on `Int` are Euclidean
and hence floor-like for the positive divisors used here. -/

def isLeapYear (y : Int) : Bool :=
  (y % 4 == 0 && y % 100 != 0) || y % 400 == 0

def daysInMonth (y m : Int) : Int :=
  if m = 2 then (if isLeapYear y then 29 else 28)
  else if m = 4 ∨ m = 6 ∨ m = 9 ∨ m = 11 then 30
  else 31

/-- Days from 1970-01-01 to the civil date `y-m-d`. -/
def daysFromCivil (y m d : Int) : Int :=
  let yAdj : Int := if m ≤ 2 then y - 1 else y
  let era : Int := yAdj / 400
  let yoe : Int := yAdj - era * 400
  let mp : Int := (m + 9) % 12
  let doy : Int := (153 * mp + 2) / 5 + d - 1
  let doe : Int := yoe * 365 + yoe / 4 - yoe / 100 + doy
  era * 146097 + doe - 719468

/-- Milliseconds per day, as in `periodDays * 24 * 60 * 60 * 1000`. -/
def msPerDay : Int := 86400000

/-- All-digit parse of a nonempty character list (decimal). -/
def strDigitsToNat (cs : List Char) : Option Nat :=
  if cs.isEmpty then none
  else if cs.all Char.isDigit then some (digitsVal cs) else none

/-- Parse the first 8 characters of a report timestamp as `YYYYMMDD`
and return the day number of that date, or `none` when the result is
not a valid date (an invalid `Date` compares false below). -/
def parseReportDay (ts : String) : Option Int :=
  let cs := ts.data
  match strDigitsToNat (cs.take 4), strDigitsToNat ((cs.drop 4).take 2),
      strDigitsToNat ((cs.drop 6).take 2) with
  | some y, some m, some d =>
      if 1 ≤ m ∧ m ≤ 12 ∧ 1 ≤ d ∧ (d : Int) ≤ daysInMonth y m then
        some (daysFromCivil y m d)
      else none
  | _, _, _ => none

/-- The filter predicate of `analyzeTrend`: the record's day-start
instant is compared against `now - periodDays` days, an instant that
keeps the invocation's time of day. -/
def includedInWindow (now periodDays : Int) (r : Metadata) : Bool :=
  match parseReportDay r.timestamp with
  | some day => decide (day * msPerDay ≥ now - periodDays * msPerDay)
  | none => false

/-- `recentReports`: the trend window. -/
def recentReports (now periodDays : Int) (rs : List Metadata) : List Metadata :=
  rs.filter (includedInWindow now periodDays)

/-! ## Metadata loading -/

/-- Reading one candidate run during trend enumeration (lines 215-224):
a missing `metadata.json` and a `JSON.parse` failure both yield `null`,
which the subsequent `.filter(m => m !== null)` discards. -/
def readEntry (e : ReportEntry) : Option Metadata :=
  match e.metadataFile with
  | some (some m) => some m
  | _ => none

/-- Order on records used by `analyzeTrend`'s
`sort((a, b) => a.timestamp.localeCompare(b.timestamp))`. -/
def tsLeRel : Metadata → Metadata → Prop :=
  fun a b => strLeJS a.timestamp b.timestamp = true

instance : DecidableRel tsLeRel := fun _ _ => inferInstanceAs (Decidable (_ = true))

/-- `allReports` of `analyzeTrend` (lines 213-226): parse every
subdirectory's `metadata.json`, drop the failures, sort oldest first. -/
def loadTrendReports (entries : List ReportEntry) : List Metadata :=
  List.insertionSort tsLeRel ((entries.map readEntry).filterMap id)

/-- `allReports` of `analyzeSingleReport` (lines 116-119): the
subdirectory names, sorted and reversed (newest first). -/
def sortedDescNames (entries : List ReportEntry) : List String :=
  (List.insertionSort strLeRel (entries.map (fun e => e.name))).reverse

/-- Result of `fs.existsSync(metadataPath)` plus `JSON.parse` for one
named run: `none` when the file does not exist (including when the run
directory itself is absent), `some none` when it exists but does not
parse, `some (some m)` when it parses. -/
def entryMetadata (entries : List ReportEntry) (ts : String) : Option (Option Metadata) :=
  match entries.find? (fun e => e.name == ts) with
  | none => none
  | some e => e.metadataFile

/-- The previous-report lookup of `analyzeSingleReport`
(lines 121-128), including its guard `currentIndex > 0` and the access
at `currentIndex + 1`.  `Except.error` marks a thrown exception (a
`path.join` on `undefined` when the index is past the end, or a
`JSON.parse` failure on a corrupt previous file), which the top-level
catch turns into exit code 1. -/
def previousMetadataOf (entries : List ReportEntry) (ts : String) : Except Unit (Option Metadata) :=
  let names := sortedDescNames entries
  let ci : Int :=
    match names.findIdx? (fun n => n == ts) with
    | some i => (i : Int)
    | none => -1
  if ci > 0 then
    match names.get? (ci.toNat + 1) with
    | none => Except.error ()
    | some prevName =>
        match entryMetadata entries prevName with
        | none => Except.ok none
        | some none => Except.error ()
        | some (some pm) => Except.ok (some pm)
  else Except.ok none

/-- Line 130: `previousMetadata ? (previousMetadata.pass_rate || 0) : 0`. -/
def previousPassRateOf (entries : List ReportEntry) (ts : String) : Except Unit ℚ :=
  (previousMetadataOf entries ts).map
    (fun pm => match pm with | some p => p.pass_rate.getD 0 | none => 0)

/-- Line 131: the single-report delta, current minus previous. -/
def passRateChangeOf (m : Metadata) (prev : Option Metadata) : ℚ :=
  m.pass_rate.getD 0 - (match prev with | some p => p.pass_rate.getD 0 | none => 0)

/-- Line 156: `(passRateChange > 0 ? '+' : '') + passRateChange.toFixed(1)`. -/
def passRateChangeStr (d : ℚ) : String :=
  (if 0 < d then "+" else "") ++ jsToFixed1 d

/-- The placeholder substitution chain of `analyzeSingleReport`
(lines 146-157), applied to the `user_prompt_template`. -/
def renderSingleUserPrompt (template project timestamp : String) (m : Metadata)
    (previousPassRate passRateChange : ℚ) (failedTestsDetails : String) : String :=
  jsReplace (jsReplace (jsReplace (jsReplace (jsReplace (jsReplace (jsReplace (jsReplace
    (jsReplace (jsReplace (jsReplace template
      "{project}" project)
      "{timestamp}" timestamp)
      "{run_number}" (jsOrNatStr m.run_number "N/A"))
      "{branch}" (jsOrStr m.branch "N/A"))
      "{total_tests}" (natToStr (m.total_tests.getD 0)))
      "{passed}" (natToStr (m.passed.getD 0)))
      "{failed}" (natToStr (m.failed.getD 0)))
      "{pass_rate}" (jsToFixed1 (m.pass_rate.getD 0)))
      "{previous_pass_rate}" (jsToFixed1 previousPassRate))
      "{pass_rate_change}" (passRateChangeStr passRateChange))
      "{failed_tests_details}" failedTestsDetails

/-! ## Trend statistics (lines 251-263)

All of these consume the pass-rate list
`passRates = recentReports.map(r => r.pass_rate || 0)`. -/

/-- Line 251. -/
def passRates (rs : List Metadata) : List ℚ :=
  rs.map (fun r => r.pass_rate.getD 0)

/-- Line 252: `passRates.reduce((a, b) => a + b, 0) / passRates.length`. -/
def avgOf (l : List ℚ) : ℚ :=
  l.foldl (· + ·) 0 / (l.length : ℚ)

/-- Line 253: ascending numeric sort (`(a, b) => a - b`), stable. -/
def sortedRates (l : List ℚ) : List ℚ :=
  List.insertionSort (· ≤ ·) l

/-- Line 254: `sortedRates[Math.floor(sortedRates.length / 2)]`.  The
index is in range whenever the list is nonempty, which the script has
already checked; `getD`'s default is never reached there. -/
def medianOf (l : List ℚ) : ℚ :=
  (sortedRates l).getD ((sortedRates l).length / 2) 0

/-- `Math.max(...l)` for a nonempty spread (the empty case, `-Infinity`
in JavaScript, is unreachable behind the nonempty check). -/
def jsMaxList (l : List ℚ) : ℚ :=
  match l with
  | [] => 0
  | h :: t => t.foldl max h

/-- `Math.min(...l)`, same remarks as `jsMaxList`. -/
def jsMinList (l : List ℚ) : ℚ :=
  match l with
  | [] => 0
  | h :: t => t.foldl min h

/-- Line 258: first record attaining the maximum rate. -/
def maxReportOf (rs : List Metadata) : Option Metadata :=
  rs.find? (fun r => decide (r.pass_rate.getD 0 = jsMaxList (passRates rs)))

/-- Line 259: first record attaining the minimum rate. -/
def minReportOf (rs : List Metadata) : Option Metadata :=
  rs.find? (fun r => decide (r.pass_rate.getD 0 = jsMinList (passRates rs)))

/-- Line 262: `reduce((sum, rate) => sum + Math.pow(rate - avg, 2), 0) / N`. -/
def varianceOf (l : List ℚ) : ℚ :=
  l.foldl (fun s r => s + (r - avgOf l) ^ 2) 0 / (l.length : ℚ)

/-- Line 263: `Math.sqrt(variance)`, as a real number. -/
noncomputable def stdDevOf (l : List ℚ) : ℝ :=
  Real.sqrt ((varianceOf l : ℚ) : ℝ)

/-! ## The script's observable behaviour

Each runner returns the exit code together with the effects it emits
(the `analysis/{project}` directory creation happens earlier, in
`runMain`).  Every `process.exit(1)` and every uncaught-then-caught
exception surfaces as exit code 1. -/

/-- `analyzeSingleReport` (lines 99-199). -/
def runSingle (p : String) (ts? : Option String) (w : AnalyzerWorld) : Nat × List Effect :=
  if jsFalsyOpt ts? then (1, [])
  else
    let ts := ts?.getD ""
    match w.reports p with
    | none => (1, [])
    | some entries =>
        match entryMetadata entries ts with
        | none => (1, [])
        | some none => (1, [])
        | some (some _m) =>
            match previousMetadataOf entries ts with
            | Except.error _ => (1, [])
            | Except.ok _prev =>
                match w.env_api_key with
                | none => (1, [])
                | some _ =>
                    match w.apiOutcome with
                    | Except.error _ => (1, [Effect.network])
                    | Except.ok _ =>
                        (0, [Effect.network,
                             Effect.write ("analysis/" ++ p ++ "/latest-analysis.md"),
                             Effect.write ("analysis/" ++ p ++ "/insights.json")])

/-- `analyzeTrend` (lines 202-311). -/
def runTrend (p : String) (periodArg : Option String) (w : AnalyzerWorld) : Nat × List Effect :=
  let periodDays := jsParseIntDefault periodArg 30
  match w.reports p with
  | none => (1, [])
  | some entries =>
      let allReports := loadTrendReports entries
      if allReports.isEmpty then (1, [])
      else if (recentReports w.now periodDays allReports).isEmpty then (1, [])
      else
        match w.env_api_key with
        | none => (1, [])
        | some _ =>
            match w.apiOutcome with
            | Except.error _ => (1, [Effect.network])
            | Except.ok _ =>
                (0, [Effect.network,
                     Effect.write ("analysis/" ++ p ++ "/trend-analysis.md")])

/-- The whole script: argument check (lines 16-19), configuration load
(line 22), unconditional creation of `analysis/{project}` when absent
(lines 29-32), then the `type` dispatch (lines 316-323). -/
def runMain (inv : CliArgs) (w : AnalyzerWorld) : Nat × List Effect :=
  if jsFalsyOpt inv.project || jsFalsyOpt inv.type then (1, [])
  else
    match w.config with
    | none => (1, [])
    | some _ =>
        let p := inv.project.getD ""
        let dirFx : List Effect :=
          if w.analysisDirExists ("analysis/" ++ p) then []
          else [Effect.mkdir ("analysis/" ++ p)]
        let t := inv.type.getD ""
        if t == "single" then
          let r := runSingle p inv.timestamp w
          (r.1, dirFx ++ r.2)
        else if t == "trend" then
          let r := runTrend p inv.period w
          (r.1, dirFx ++ r.2)
        else (1, dirFx)

/-! ## Auxiliary definitions used by the statements -/

/-- Replaces an absent `pass_rate` by an explicit `0`, the value every
`(r.pass_rate || 0)` site reads for it. -/
def fillPassRate (m : Metadata) : Metadata :=
  { m with pass_rate := some (m.pass_rate.getD 0) }

/-- A run record with pass rate 85. -/
def m85 : Metadata :=
  { timestamp := "20240101-000000", run_number := some 1, branch := some "main",
    status := some "completed", total_tests := some 100, passed := some 85,
    failed := some 15, pass_rate := some 85, failed_tests := none }

/-- A run record with pass rate 90. -/
def m90 : Metadata :=
  { timestamp := "20240102-000000", run_number := some 2, branch := some "main",
    status := some "completed", total_tests := some 100, passed := some 90,
    failed := some 10, pass_rate := some 90, failed_tests := none }

/-- A run record with pass rate 95. -/
def m95 : Metadata :=
  { timestamp := "20240103-000000", run_number := some 3, branch := some "main",
    status := some "completed", total_tests := some 100, passed := some 95,
    failed := some 5, pass_rate := some 95, failed_tests := none }

/-- A record whose `metadata.json` lacks the `pass_rate` field. -/
def mNoRate : Metadata :=
  { timestamp := "20240104-000000", run_number := some 4, branch := some "main",
    status := some "completed", total_tests := some 100, passed := some 0,
    failed := some 100, pass_rate := none, failed_tests := none }

/-- A record dated on the boundary day of a 7-day window ending
2024-01-08. -/
def boundaryMeta : Metadata :=
  { timestamp := "20240101-120000", run_number := some 1, branch := some "main",
    status := some "completed", total_tests := some 100, passed := some 90,
    failed := some 10, pass_rate := some 90, failed_tests := none }

/-- The report subdirectory of `m85`, with a well-formed metadata file. -/
def e85 : ReportEntry := { name := "20240101-000000", metadataFile := some (some m85) }

/-- The report subdirectory of `m90`, with a well-formed metadata file. -/
def e90 : ReportEntry := { name := "20240102-000000", metadataFile := some (some m90) }

/-- A report subdirectory whose `metadata.json` exists but does not
parse. -/
def eCorrupt : ReportEntry := { name := "20240102-000000", metadataFile := some none }

/-- A trivial prompt configuration. -/
def cfg0 : AnalyzerConfig :=
  { singleSystem := "", singleTemplate := "",
    trendSystem := "", trendTemplate := "" }

/-- A world with the configuration present, no reports, no analysis
directories, and no credential. -/
def w0 : AnalyzerWorld :=
  { config := some cfg0, reports := fun _ => none,
    analysisDirExists := fun _ => false, env_api_key := none,
    apiOutcome := Except.error "", now := 0 }

/-- An invocation whose `type` is neither `single` nor `trend`. -/
def invBadType : CliArgs :=
  { project := some "proj", type := some "weekly", timestamp := none, period := none }

/-- A well-formed single-report invocation for the newest run. -/
def invSingle : CliArgs :=
  { project := some "proj", type := some "single",
    timestamp := some "20240102-000000", period := none }

/-- A world with two well-formed reports and everything configured
except the credential. -/
def wNoKey : AnalyzerWorld :=
  { config := some cfg0, reports := fun _ => some [e85, e90],
    analysisDirExists := fun _ => true, env_api_key := none,
    apiOutcome := Except.ok "ok", now := 0 }

/-! ## Shared lemmas -/

/-- Left fold of addition starting from an accumulator is the
accumulator plus the sum. -/
theorem foldl_add_eq_sum (l : List ℚ) : ∀ a : ℚ, l.foldl (· + ·) a = a + l.sum := by
  induction l with
  | nil => intro a; simp
  | cons h t ih => intro a; simp only [List.foldl_cons, List.sum_cons, ih]; ring

/-- Left fold of squared deviations starting from an accumulator is the
accumulator plus the mapped sum. -/
theorem foldl_sqdev_eq_sum (c : ℚ) (l : List ℚ) :
    ∀ a : ℚ, l.foldl (fun s r => s + (r - c) ^ 2) a =
      a + (l.map (fun r => (r - c) ^ 2)).sum := by
  induction l with
  | nil => intro a; simp
  | cons h t ih => intro a; simp only [List.foldl_cons, List.map_cons, List.sum_cons, ih]; ring

/-! ## Claims -/

/-- Claim C1, corrected: for every trend window the median computed by
`analyzeTrend` is the element at zero-based index `N / 2` of the
ascending-sorted pass-rate list — the upper-middle element when the
length is even — so the sorted rates `[10, 20, 30, 40]` have median
`30`, not the lower-middle `20`. -/
theorem median_upper_middle :
    (∀ (l s : List ℚ), s.Perm l → s.Sorted (· ≤ ·) →
      medianOf l = s.getD (l.length / 2) 0) ∧
    medianOf [10, 20, 30, 40] = 30 := by
  constructor
  · intro l s hp hs
    have h1 : (sortedRates l).Perm l := List.perm_insertionSort _ l
    have h2 : List.Sorted (· ≤ ·) (sortedRates l) := List.sorted_insertionSort _ l
    have he : s = sortedRates l := List.eq_of_perm_of_sorted (hp.trans h1.symm) hs h2
    have hl : (sortedRates l).length = l.length := h1.length_eq
    rw [medianOf, hl, he]
  · decide

/-- Claim C1 counterexample: on the sorted pass rates
`[10, 20, 30, 40]` the script's median is `30` (index `⌊4/2⌋ = 2`),
not the claimed lower-middle `20`. -/
theorem median_counterexample :
    medianOf [10, 20, 30, 40] ≠ 20 ∧ medianOf [10, 20, 30, 40] = 30 := by
  decide

/-- Witness for `median_upper_middle` at the window `[20, 10]` with
sorted arrangement `[10, 20]`. -/
theorem median_upper_middle_witness :
    ([10, 20] : List ℚ).Perm [20, 10] ∧ ([10, 20] : List ℚ).Sorted (· ≤ ·) ∧
      medianOf [20, 10] = ([10, 20] : List ℚ).getD (([20, 10] : List ℚ).length / 2) 0 :=
  ⟨by decide, by decide, median_upper_middle.1 [20, 10] [10, 20] (by decide) (by decide)⟩

/-- Claim C8, confirmed: for a nonempty rate list the script's average
is the exact arithmetic mean, its variance is the population variance
(sum of squared deviations from the mean divided by `N`), and its
standard deviation is the square root of that variance. -/
theorem trend_mean_and_population_stddev :
    ∀ l : List ℚ, l ≠ [] →
      avgOf l = l.sum / (l.length : ℚ) ∧
      varianceOf l = ((l.map (fun r => (r - avgOf l) ^ 2)).sum) / (l.length : ℚ) ∧
      stdDevOf l =
        Real.sqrt ((((l.map (fun r => (r - avgOf l) ^ 2)).sum / (l.length : ℚ) : ℚ) : ℝ)) := by
  intro l _
  have h1 : avgOf l = l.sum / (l.length : ℚ) := by
    rw [avgOf, foldl_add_eq_sum, zero_add]
  have h2 : varianceOf l = ((l.map (fun r => (r - avgOf l) ^ 2)).sum) / (l.length : ℚ) := by
    rw [varianceOf, foldl_sqdev_eq_sum, zero_add]
  refine ⟨h1, h2, ?_⟩
  rw [stdDevOf, h2]

/-- Witness for `trend_mean_and_population_stddev` at the rate list
`[1, 2]`. -/
theorem trend_mean_and_population_stddev_witness :
    ([1, 2] : List ℚ) ≠ [] ∧
      (avgOf [1, 2] = ([1, 2] : List ℚ).sum / (([1, 2] : List ℚ).length : ℚ) ∧
        varianceOf [1, 2] =
          ((([1, 2] : List ℚ).map (fun r => (r - avgOf [1, 2]) ^ 2)).sum) /
            (([1, 2] : List ℚ).length : ℚ) ∧
        stdDevOf [1, 2] =
          Real.sqrt ((((([1, 2] : List ℚ).map (fun r => (r - avgOf [1, 2]) ^ 2)).sum /
            (([1, 2] : List ℚ).length : ℚ) : ℚ) : ℝ))) :=
  ⟨by decide, trend_mean_and_population_stddev [1, 2] (by decide)⟩

/-- Claim C9, confirmed: during trend enumeration an entry whose
`metadata.json` is missing or unparseable is skipped without failing —
removing such an entry from the directory does not change the loaded
records at all, and the concrete directory holding one valid and one
corrupt file yields exactly the valid record. -/
theorem enumeration_skips_unparseable :
    (∀ (pre post : List ReportEntry) (e : ReportEntry), readEntry e = none →
        loadTrendReports (pre ++ e :: post) = loadTrendReports (pre ++ post)) ∧
    loadTrendReports [e85, eCorrupt] = [m85] := by
  constructor
  · intro pre post e h
    simp [loadTrendReports, List.filterMap_append, h]
  · decide

/-- Witness for `enumeration_skips_unparseable`: dropping the corrupt
entry leaves the loaded records unchanged. -/
theorem enumeration_skips_unparseable_witness :
    readEntry eCorrupt = none ∧
      loadTrendReports ([e85] ++ eCorrupt :: []) = loadTrendReports ([e85] ++ []) :=
  ⟨rfl, enumeration_skips_unparseable.1 [e85] [] eCorrupt rfl⟩

/-- Helper for the replacement characterisation: on character lists,
`listReplaceFirst` rewrites exactly the first occurrence. -/
theorem listReplaceFirst_spec (pat rep : List Char) :
    ∀ s : List Char, (∃ i, occursAtL pat s i) →
      ∃ i, occursAtL pat s i ∧ (∀ j, j < i → ¬ occursAtL pat s j) ∧
        listReplaceFirst pat rep s = s.take i ++ rep ++ s.drop (i + pat.length) := by
  intro s
  induction s with
  | nil =>
    rintro ⟨i, hi⟩
    have hp : leadsWith pat [] = true := by
      simpa [occursAtL, List.drop_nil] using hi
    refine ⟨0, ?_, ?_, ?_⟩
    · simpa [occursAtL] using hp
    · intro j hj; omega
    · simp [listReplaceFirst, hp]
  | cons c cs ih =>
    rintro ⟨i, hi⟩
    by_cases h : leadsWith pat (c :: cs) = true
    · refine ⟨0, ?_, ?_, ?_⟩
      · simpa [occursAtL] using h
      · intro j hj; omega
      · simp [listReplaceFirst, h]
    · have hi0 : i ≠ 0 := by
        intro h0
        subst h0
        exact h (by simpa [occursAtL] using hi)
      obtain ⟨i', rfl⟩ : ∃ i', i = i' + 1 := ⟨i - 1, by omega⟩
      have hi' : occursAtL pat cs i' := by
        simpa [occursAtL, List.drop_succ_cons] using hi
      obtain ⟨j, h₀, hmin, heq⟩ := ih ⟨i', hi'⟩
      refine ⟨j + 1, ?_, ?_, ?_⟩
      · simpa [occursAtL, List.drop_succ_cons] using h₀
      · intro k hk
        match k with
        | 0 =>
          intro hc
          exact h (by simpa [occursAtL] using hc)
        | Nat.succ k' =>
          intro hc
          exact hmin k' (by omega) (by simpa [occursAtL, List.drop_succ_cons] using hc)
      · have harith : j + 1 + pat.length = (j + pat.length) + 1 := by omega
        rw [harith]
        simp [listReplaceFirst, h, heq, List.drop_succ_cons]

/-- Claim C4, corrected: the prompt renderer's substitution primitive
`s.replace(pat, rep)` rewrites only the FIRST occurrence of the named
placeholder: whenever the pattern occurs in the template there is a
first position such that exactly the pattern at that position is
replaced and everything after it (including later occurrences) is kept
verbatim.  The substitution itself performs no I/O: it is a pure
function of its string arguments. -/
theorem prompt_replace_first_occurrence :
    ∀ (s pat rep : String), (∃ i, occursAtL pat.data s.data i) →
      ∃ i, occursAtL pat.data s.data i ∧ (∀ j, j < i → ¬ occursAtL pat.data s.data j) ∧
        jsReplace s pat rep =
          String.mk (s.data.take i ++ rep.data ++ s.data.drop (i + pat.data.length)) := by
  intro s pat rep h
  obtain ⟨i, h1, h2, h3⟩ := listReplaceFirst_spec pat.data rep.data s.data h
  exact ⟨i, h1, h2, by rw [jsReplace, h3]⟩

/-- Claim C4 counterexample: a template in which the placeholder
appears twice is rendered with only the first occurrence substituted,
contradicting replace-every-occurrence. -/
theorem prompt_replace_counterexample :
    renderSingleUserPrompt "{project} and {project}" "P" "20240101-000000" m85 85 5 "" =
      "P and {project}" ∧
    "P and {project}" ≠ ("P and P" : String) := by
  constructor
  · decide
  · decide

/-- Witness for `prompt_replace_first_occurrence` on a two-character
string. -/
theorem prompt_replace_first_occurrence_witness :
    (∃ i, occursAtL "b".data "ab".data i) ∧
      (∃ i, occursAtL "b".data "ab".data i ∧
        (∀ j, j < i → ¬ occursAtL "b".data "ab".data j) ∧
        jsReplace "ab" "b" "c" =
          String.mk ("ab".data.take i ++ "c".data ++ "ab".data.drop (i + "b".data.length))) :=
  ⟨⟨1, by decide⟩, prompt_replace_first_occurrence "ab" "b" "c" ⟨1, by decide⟩⟩

/-- Claim C3, corrected: day granularity applies only to the record
side of the cutoff comparison.  The record's timestamp is truncated to
its `YYYYMMDD` day-start instant, but the cutoff `now - period` days
keeps the invocation's time of day, so a record lying exactly on the
boundary day is inside the window if and only if the cutoff instant is
exactly a day boundary (midnight UTC). -/
theorem trend_boundary_day_condition :
    ∀ (now period : Int) (r : Metadata) (D : Int),
      parseReportDay r.timestamp = some D →
      D = (now - period * msPerDay) / msPerDay →
      (includedInWindow now period r = true ↔
        (now - period * msPerDay) % msPerDay = 0) := by
  intro now period r D h1 h2
  rw [includedInWindow, h1]
  subst h2
  simp only [msPerDay, decide_eq_true_eq, ge_iff_le]
  omega

/-- Claim C3 counterexample: with the invocation at noon UTC on
2024-01-08 and a 7-day window, the record dated on the boundary day
2024-01-01 is excluded from the window, although its day is exactly the
boundary day `⌊(now - 7 days) / day⌋`. -/
theorem trend_boundary_counterexample :
    parseReportDay boundaryMeta.timestamp =
      some ((daysFromCivil 2024 1 8 * msPerDay + 43200000 - 7 * msPerDay) / msPerDay) ∧
    includedInWindow (daysFromCivil 2024 1 8 * msPerDay + 43200000) 7 boundaryMeta = false ∧
    recentReports (daysFromCivil 2024 1 8 * msPerDay + 43200000) 7 [boundaryMeta] = [] := by
  exact ⟨by decide, by decide, by decide⟩

/-- Witness for `trend_boundary_day_condition`: an invocation exactly at
midnight UTC on 2024-01-08 with a 7-day window and a record on the
boundary day 2024-01-01. -/
theorem trend_boundary_day_condition_witness :
    parseReportDay boundaryMeta.timestamp = some (daysFromCivil 2024 1 1) ∧
    daysFromCivil 2024 1 1 = (daysFromCivil 2024 1 8 * msPerDay - 7 * msPerDay) / msPerDay ∧
    (includedInWindow (daysFromCivil 2024 1 8 * msPerDay) 7 boundaryMeta = true ↔
      (daysFromCivil 2024 1 8 * msPerDay - 7 * msPerDay) % msPerDay = 0) :=
  ⟨by decide, by decide,
    trend_boundary_day_condition (daysFromCivil 2024 1 8 * msPerDay) 7 boundaryMeta
      (daysFromCivil 2024 1 1) (by decide) (by decide)⟩

/-- Claim C2, code bug: with exactly two reports, analyzing the newest
timestamp `20240102-000000` finds `currentIndex = 0` in the
reverse-sorted listing, so the guard `currentIndex > 0` skips the
previous-report lookup and the delta baseline is `0` — even though the
record immediately preceding the requested timestamp exists and has
pass rate `85`. -/
theorem single_previous_lookup_miss :
    sortedDescNames [e85, e90] = ["20240102-000000", "20240101-000000"] ∧
    entryMetadata [e85, e90] "20240101-000000" = some (some m85) ∧
    m85.pass_rate = some 85 ∧
    previousPassRateOf [e85, e90] "20240102-000000" = Except.ok 0 := by
  exact ⟨by decide, by decide, rfl, by rfl⟩

/-- Every character produced by the digit accumulator is either from
the initial accumulator or a decimal digit character. -/
theorem natToStrAux_mem (c : Char) :
    ∀ (fuel n : Nat) (acc : List Char), c ∈ natToStrAux fuel n acc →
      c ∈ acc ∨ ∃ k, k < 10 ∧ c = Nat.digitChar k := by
  intro fuel
  induction fuel with
  | zero =>
    intro n acc h
    exact Or.inl (by simpa [natToStrAux] using h)
  | succ f ih =>
    intro n acc h
    by_cases hn : n = 0
    · exact Or.inl (by simpa [natToStrAux, hn] using h)
    · have h' := ih (n / 10) (Nat.digitChar (n % 10) :: acc)
        (by simpa [natToStrAux, hn] using h)
      rcases h' with h' | h'
      · rcases List.mem_cons.mp h' with h'' | h''
        · exact Or.inr ⟨n % 10, Nat.mod_lt _ (by norm_num), h''⟩
        · exact Or.inl h''
      · exact Or.inr h'

/-- The decimal rendering of a natural number never contains `+`. -/
theorem natToStr_mem_ne_plus (n : Nat) (c : Char) (h : c ∈ (natToStr n).data) :
    c ≠ '+' := by
  rw [natToStr] at h
  by_cases hn : n = 0
  · rw [if_pos hn] at h
    have : c = '0' := by simpa using h
    subst this
    decide
  · rw [if_neg hn] at h
    have hm := natToStrAux_mem c (n + 1) n [] (by simpa using h)
    rcases hm with h' | ⟨k, hk, rfl⟩
    · simp at h'
    · have hd : ∀ k, k < 10 → Nat.digitChar k ≠ '+' := by decide
      exact hd k hk

/-- The one-decimal rendering of a nonnegative rational never contains
`+`. -/
theorem jsToFixed1Abs_mem_ne_plus (q : ℚ) (c : Char)
    (h : c ∈ (jsToFixed1Abs q).data) : c ≠ '+' := by
  rw [jsToFixed1Abs] at h
  simp only [String.data_append, List.mem_append] at h
  rcases h with (h | h) | h
  · exact natToStr_mem_ne_plus _ c h
  · have : c = '.' := by simpa using h
    subst this
    decide
  · exact natToStr_mem_ne_plus _ c h

/-- The `toFixed(1)` rendering never starts with `+`. -/
theorem jsToFixed1_head_ne_plus (q : ℚ) (c : Char)
    (h : (jsToFixed1 q).data.head? = some c) : c ≠ '+' := by
  have hmem : c ∈ (jsToFixed1 q).data := List.mem_of_mem_head? h
  rw [jsToFixed1] at hmem
  by_cases hq : q < 0
  · rw [if_pos hq] at hmem
    simp only [String.data_append, List.mem_append] at hmem
    rcases hmem with hmem | hmem
    · have : c = '-' := by simpa using hmem
      subst this
      decide
    · exact jsToFixed1Abs_mem_ne_plus _ c hmem
  · rw [if_neg hq] at hmem
    exact jsToFixed1Abs_mem_ne_plus _ c hmem

/-- The rendered delta string starts with `+` exactly when the delta is
positive. -/
theorem passRateChangeStr_head_iff (d : ℚ) :
    ((passRateChangeStr d).data.head? = some '+') ↔ 0 < d := by
  constructor
  · intro h
    by_contra hneg
    rw [passRateChangeStr, if_neg hneg] at h
    have : ("" ++ jsToFixed1 d) = jsToFixed1 d := by simp
    rw [this] at h
    exact jsToFixed1_head_ne_plus d '+' h rfl
  · intro h
    rw [passRateChangeStr, if_pos h]
    simp [String.data_append]

/-- Claim C6, confirmed: the rendered pass-rate-change string is the
delta formatted to one decimal place with a `+` prefix exactly when the
delta is positive; current `90.0` against previous `85.0` renders as
`+5.0`, and against previous `95.0` as `-5.0` with no leading `+`. -/
theorem single_delta_string_format :
    ∀ (m p : Metadata),
      (((passRateChangeStr (passRateChangeOf m (some p))).data.head? = some '+') ↔
        0 < passRateChangeOf m (some p)) ∧
      (m.pass_rate = some 90 → p.pass_rate = some 85 →
        passRateChangeStr (passRateChangeOf m (some p)) = "+5.0") ∧
      (m.pass_rate = some 90 → p.pass_rate = some 95 →
        passRateChangeStr (passRateChangeOf m (some p)) = "-5.0") := by
  intro m p
  refine ⟨passRateChangeStr_head_iff _, ?_, ?_⟩
  · intro h1 h2
    have hd : passRateChangeOf m (some p) = 5 := by
      rw [passRateChangeOf, h1, h2]
      norm_num
    rw [hd]
    decide
  · intro h1 h2
    have hd : passRateChangeOf m (some p) = -5 := by
      rw [passRateChangeOf, h1, h2]
      norm_num
    rw [hd]
    decide

/-- Witness for `single_delta_string_format` on the concrete records
with pass rates 90, 85 and 95. -/
theorem single_delta_string_format_witness :
    m90.pass_rate = some 90 ∧ m85.pass_rate = some 85 ∧ m95.pass_rate = some 95 ∧
    passRateChangeStr (passRateChangeOf m90 (some m85)) = "+5.0" ∧
    passRateChangeStr (passRateChangeOf m90 (some m95)) = "-5.0" :=
  ⟨rfl, rfl, rfl,
    (single_delta_string_format m90 m85).2.1 rfl rfl,
    (single_delta_string_format m90 m95).2.2 rfl rfl⟩

/-- Filling an absent pass rate with `0` does not change the value the
`(r.pass_rate || 0)` sites read. -/
theorem fillPassRate_getD (r : Metadata) :
    (fillPassRate r).pass_rate.getD 0 = r.pass_rate.getD 0 := by
  simp [fillPassRate]

/-- The pass-rate list only depends on the defaulted pass rates. -/
theorem passRates_fill (rs : List Metadata) :
    passRates (rs.map fillPassRate) = passRates rs := by
  simp [passRates, List.map_map, Function.comp, fillPassRate]

/-- Maximum-record selection commutes with filling absent pass rates. -/
theorem maxReportOf_fill (rs : List Metadata) :
    maxReportOf (rs.map fillPassRate) = (maxReportOf rs).map fillPassRate := by
  rw [maxReportOf, maxReportOf, List.find?_map, passRates_fill]
  congr 1

/-- Minimum-record selection commutes with filling absent pass rates. -/
theorem minReportOf_fill (rs : List Metadata) :
    minReportOf (rs.map fillPassRate) = (minReportOf rs).map fillPassRate := by
  rw [minReportOf, minReportOf, List.find?_map, passRates_fill]
  congr 1

/-- The single-report delta only depends on the defaulted pass rates. -/
theorem passRateChangeOf_fill (m : Metadata) (prev : Option Metadata) :
    passRateChangeOf (fillPassRate m) (prev.map fillPassRate) = passRateChangeOf m prev := by
  cases prev <;> simp [passRateChangeOf, fillPassRate]

/-- Claim C10, confirmed: a record whose `pass_rate` field is absent is
treated as `0` everywhere and never causes a failure: the statistics
inputs, the median, the max/min record selections and the single-report
delta are unchanged when the absent field is replaced by an explicit
`0`, absent means exactly `pass_rate = 0` after defaulting, and the
prompt renderer formats the defaulted value as `0.0`.  (All modelled
operations are total functions, so no error is possible.) -/
theorem missing_pass_rate_reads_zero :
    ∀ (rs : List Metadata) (m : Metadata) (prev : Option Metadata),
      passRates (rs.map fillPassRate) = passRates rs ∧
      medianOf (passRates (rs.map fillPassRate)) = medianOf (passRates rs) ∧
      maxReportOf (rs.map fillPassRate) = (maxReportOf rs).map fillPassRate ∧
      minReportOf (rs.map fillPassRate) = (minReportOf rs).map fillPassRate ∧
      passRateChangeOf (fillPassRate m) (prev.map fillPassRate) = passRateChangeOf m prev ∧
      (m.pass_rate = none →
        fillPassRate m = { m with pass_rate := some 0 } ∧
        jsToFixed1 (m.pass_rate.getD 0) = "0.0") := by
  intro rs m prev
  refine ⟨passRates_fill rs, by rw [passRates_fill], maxReportOf_fill rs,
    minReportOf_fill rs, passRateChangeOf_fill m prev, ?_⟩
  intro h
  constructor
  · simp [fillPassRate, h]
  · rw [h]
    decide

/-- Witness for `missing_pass_rate_reads_zero` on the record without a
`pass_rate` field. -/
theorem missing_pass_rate_reads_zero_witness :
    mNoRate.pass_rate = none ∧
      (fillPassRate mNoRate = { mNoRate with pass_rate := some 0 } ∧
        jsToFixed1 (mNoRate.pass_rate.getD 0) = "0.0") ∧
      passRates ([mNoRate].map fillPassRate) = passRates [mNoRate] :=
  ⟨rfl, (missing_pass_rate_reads_zero [mNoRate] mNoRate none).2.2.2.2.2 rfl,
    (missing_pass_rate_reads_zero [mNoRate] mNoRate none).1⟩

/-- Without the credential, single-report analysis fails before any
effect: every earlier exit also produces no effect. -/
theorem runSingle_no_key (p : String) (ts? : Option String) (w : AnalyzerWorld)
    (h : w.env_api_key = none) : runSingle p ts? w = (1, []) := by
  simp only [runSingle, h]
  repeat' split
  all_goals rfl

/-- Without the credential, trend analysis fails before any effect. -/
theorem runTrend_no_key (p : String) (periodArg : Option String) (w : AnalyzerWorld)
    (h : w.env_api_key = none) : runTrend p periodArg w = (1, []) := by
  simp only [runTrend, h]
  repeat' split
  all_goals rfl

/-- Claim C7, confirmed: when the credential environment variable is
unset, every invocation exits with code 1 and no network request is
ever attempted (the key is checked before `https.request` is built). -/
theorem missing_credential_no_network :
    ∀ (inv : CliArgs) (w : AnalyzerWorld), w.env_api_key = none →
      (runMain inv w).1 = 1 ∧ Effect.network ∉ (runMain inv w).2 := by
  intro inv w h
  have hs := runSingle_no_key (inv.project.getD "") inv.timestamp w h
  have ht := runTrend_no_key (inv.project.getD "") inv.period w h
  simp only [runMain, hs, ht]
  repeat' split
  all_goals simp

/-- Witness for `missing_credential_no_network` on a fully configured
single-report invocation whose world lacks only the credential. -/
theorem missing_credential_no_network_witness :
    wNoKey.env_api_key = none ∧
      ((runMain invSingle wNoKey).1 = 1 ∧
        Effect.network ∉ (runMain invSingle wNoKey).2) :=
  ⟨rfl, missing_credential_no_network invSingle wNoKey rfl⟩

/-- Claim C5, corrected: an invocation whose `type` is neither `single`
nor `trend` exits with code 1 and performs no network call, but it may
write to the filesystem: the `analysis/{project}` directory is created
(before the type check) whenever it does not already exist, and that is
the only possible filesystem effect. -/
theorem unknown_type_exits_nonzero :
    ∀ (inv : CliArgs) (w : AnalyzerWorld) (t : String),
      inv.type = some t → t ≠ "single" → t ≠ "trend" →
      (runMain inv w).1 = 1 ∧
      ∀ e ∈ (runMain inv w).2, ∃ d, e = Effect.mkdir d := by
  intro inv w t ht h1 h2
  have hs : (t == "single") = false := by simp [h1]
  have htr : (t == "trend") = false := by simp [h2]
  simp only [runMain, ht, Option.getD_some, hs, htr, Bool.false_eq_true, if_false]
  repeat' split
  all_goals simp

/-- Claim C5 counterexample: with `type = weekly` and no pre-existing
analysis directory, the run exits 1 but still creates
`analysis/proj` — a filesystem write, contradicting the claim that none
is performed. -/
theorem unknown_type_counterexample :
    runMain invBadType w0 = (1, [Effect.mkdir "analysis/proj"]) ∧
    Effect.mkdir "analysis/proj" ∈ (runMain invBadType w0).2 := by
  exact ⟨by rfl, by decide⟩

/-- Witness for `unknown_type_exits_nonzero` at the concrete unknown
type `weekly`. -/
theorem unknown_type_exits_nonzero_witness :
    invBadType.type = some "weekly" ∧
      ((runMain invBadType w0).1 = 1 ∧
        ∀ e ∈ (runMain invBadType w0).2, ∃ d, e = Effect.mkdir d) :=
  ⟨rfl, unknown_type_exits_nonzero invBadType w0 "weekly" rfl (by decide) (by decide)⟩
